import Mathlib

/-!
Verification development for the eve-l-preview compositing/event engine
(`src/main.rs`).

The Rust program is shallowly embedded:

* pure computations (color parsing, alpha premultiplication, window-title
  matching) are translated directly into Lean functions;
* the stateful event handlers are modelled as functions from an explicit
  registry (an association list mirroring `HashMap<Window, Thumbnail>`,
  its list order standing for the map's arbitrary iteration order) to a
  new registry, together with the list of protocol requests they issue;
* machine integers are `Nat`/`Int` with explicit two's-complement wrapping
  where the Rust types (`u16`/`i16`) can overflow (release-mode semantics);
* the two `f32` operations in `Config::parse_color` are embedded exactly as
  IEEE-754 binary32 round-to-nearest-even on exact rationals;
* fallible operations return `Except Unit` (the concrete `anyhow::Error`
  payload carries no semantics the claims depend on);
* connection-level request failures inside the focus/motion/button handlers
  are not modelled: those handlers are specified on the success path, while
  the creation path and the startup scan model failure explicitly.

Request emission is modelled for the handlers whose behaviour is specified
in terms of issued requests (focus change, pointer motion, button release,
visibility); the creation / property / destroy arms are modelled at the
registry level.
-/

namespace EveL

/-! ### Machine-integer helpers -/

/-- Two's-complement wrap of an integer into the `i16` range: the semantics
of Rust release-mode `i16` arithmetic. -/
def wrap16 (z : Int) : Int := (z + 32768) % 65536 - 32768

/-- The Rust cast `u16 as i16` (reinterpret the 16-bit pattern). -/
def u16AsI16 (n : Nat) : Int := if n < 32768 then (n : Int) else (n : Int) - 65536

/-- Wrapping `i16` addition. -/
def iadd16 (a b : Int) : Int := wrap16 (a + b)

/-- Wrapping `i16` subtraction. -/
def isub16 (a b : Int) : Int := wrap16 (a - b)

/-! ### IEEE-754 binary32 rounding, embedded exactly on rationals

`Config::parse_color` computes `(v as f32 / u8::MAX as f32 * u16::MAX as f32)
as u16`.  Both `f32` operations round to nearest, ties to even; the cast
truncates toward zero and saturates.  We represent every intermediate `f32`
value exactly as a dyadic rational `(numerator, denominator)`. -/

/-- Bit length of a natural number (fuelled, structurally recursive). -/
def bitlen : Nat → Nat → Nat
  | 0, _ => 0
  | fuel + 1, n => if n = 0 then 0 else bitlen fuel (n / 2) + 1

/-- Least `k` with `d ≤ n * 2 ^ k` (fuelled, structurally recursive). -/
def upShift : Nat → Nat → Nat → Nat
  | 0, _, _ => 0
  | fuel + 1, n, d => if d ≤ n then 0 else upShift fuel (2 * n) d + 1

/-- Round `N / D` to the nearest integer, ties to even. -/
def rne (N D : Nat) : Nat :=
  let q := N / D
  let r := N % D
  if 2 * r < D then q
  else if D < 2 * r then q + 1
  else if q % 2 = 0 then q else q + 1

/-- Round the positive rational `n / d` to the nearest IEEE-754 binary32
value (round to nearest, ties to even), returned as an exact dyadic rational
`(numerator, denominator)`.  Valid on the normal range, which covers every
value arising in `parse_color` (`1/255 ≤ q ≤ 65535`). -/
def round24 (n d : Nat) : Nat × Nat :=
  if n = 0 ∨ d = 0 then (0, 1)
  else
    let e : Int := if d ≤ n then (bitlen 64 (n / d) : Int) - 1 else -(upShift 64 n d : Int)
    if e ≤ 23 then
      let s := (23 - e).toNat
      (rne (n * 2 ^ s) d, 2 ^ s)
    else
      let s := (e - 23).toNat
      (rne n (d * 2 ^ s) * 2 ^ s, 1)

/-! ### `Config` color handling -/

/-- X Render color with 16-bit channels (`x11rb::protocol::render::Color`). -/
structure Color where
  red : Nat
  green : Nat
  blue : Nat
  alpha : Nat
deriving DecidableEq, Repr

/-- The channel scaling closure in `Config::parse_color`:
`|v: u16| (v as f32 / u8::MAX as f32 * u16::MAX as f32) as u16`.
`v as f32` is exact for `v ≤ 255`; the division and the multiplication each
round once to binary32; the cast truncates toward zero and saturates. -/
def scale (v : Nat) : Nat :=
  let q1 := round24 v 255
  let q2 := round24 (q1.1 * 65535) q1.2
  min (q2.1 / q2.2) 65535

/-- `Config::parse_color`, applied to the already-parsed `0xAARRGGBB`
numeric value (environment-variable I/O is outside the model). -/
def parse_color (raw : Nat) : Color :=
  let a := (raw >>> 24) &&& 0xFF
  let r := (raw >>> 16) &&& 0xFF
  let g := (raw >>> 8) &&& 0xFF
  let b := raw &&& 0xFF
  { red := scale r, green := scale g, blue := scale b, alpha := scale a }

/-- `Config::premultiply_argb32`. -/
def premultiply_argb32 (argb : Nat) : Nat :=
  let a := (argb >>> 24) &&& 0xFF
  let r := (argb >>> 16) &&& 0xFF
  let g := (argb >>> 8) &&& 0xFF
  let b := argb &&& 0xFF
  let r_p := r * a / 255
  let g_p := g * a / 255
  let b_p := b * a / 255
  (a <<< 24) ||| (r_p <<< 16) ||| (g_p <<< 8) ||| b_p

/-! ### Window classification -/

/-- Rust `str::strip_prefix` on character lists: strip a leading pattern. -/
def dropLeading : List Char → List Char → Option (List Char)
  | [], s => some s
  | _ :: _, [] => none
  | c :: p, d :: s => if c = d then dropLeading p s else none

/-- `is_window_eve`, given the window's title (the `WM_NAME` read and the
UTF-8 decoding are outside the model; titles are character lists). -/
def is_window_eve (title : List Char) : Option (List Char) :=
  match dropLeading "EVE - ".toList title with
  | some name => some name
  | none => if title = "EVE".toList then some [] else none

/-! ### Data model -/

/-- The immutable startup configuration (`struct Config`).  Numeric fields
use the natural/integer ranges of their Rust types (`u16`, `i16`, `u32`). -/
structure Config where
  width : Nat
  height : Nat
  opacity : Nat
  border_size : Nat
  border_color : Color
  text_x : Int
  text_y : Int
  text_foreground : Nat
  text_background : Nat
  hide_when_no_focus : Bool
deriving DecidableEq, Repr

/-- `struct InputState`: the per-thumbnail drag sub-state. -/
structure InputState where
  dragging : Bool
  drag_start : Int × Int
  win_start : Int × Int
deriving DecidableEq, Repr

/-- `struct Thumbnail`: one tracked source window.  Server-side resource
handles are opaque identifiers; the `conn` and `config` references are
threaded through the operations instead of stored. -/
structure Thumb where
  window : Nat
  x : Int
  y : Int
  border_fill : Nat
  src_picture : Nat
  dst_picture : Nat
  overlay_gc : Nat
  overlay_pixmap : Nat
  overlay_picture : Nat
  character_name : List Char
  focused : Bool
  visible : Bool
  minimized : Bool
  src : Nat
  root : Nat
  damage : Nat
  input_state : InputState
deriving DecidableEq, Repr

/-- Compositing operator (`render::PictOp` values used by the program). -/
inductive POp where
  | SRC
  | CLEAR
  | OVER
deriving DecidableEq, Repr

/-- Protocol requests issued by the modelled operations.
`renderComposite op src dst srcXY maskXY dstXY w h` mirrors
`render_composite` with its always-zero mask picture omitted;
`sendActiveWindow dest src` is the `_NET_ACTIVE_WINDOW` client-message
broadcast of `Thumbnail::focus` (sent to `dest`, on behalf of window
`src`). -/
inductive Req where
  | renderComposite (op : POp) (src dst : Nat) (srcX srcY maskX maskY dstX dstY : Int)
      (w h : Nat)
  | imageText (drawable gc : Nat) (x y : Int) (text : List Char)
  | mapWindow (w : Nat)
  | unmapWindow (w : Nat)
  | configureWindow (w : Nat) (x y : Int)
  | sendActiveWindow (dest src : Nat)
  | flush
deriving DecidableEq, Repr

/-- Wrapping `u16` multiplication-by-two then subtraction, as in
`config.width - config.border_size * 2` (release-mode `u16` semantics,
assuming `a < 65536`). -/
def sub16u (a b : Nat) : Nat := (a + 65536 - b % 65536) % 65536

/-! ### Thumbnail operations -/

/-- `Thumbnail::visibility`: idempotent map/unmap. -/
def Thumb.visibility (t : Thumb) (visible : Bool) : Thumb × List Req :=
  if visible = t.visible then (t, [])
  else
    ({ t with visible := visible },
     if visible then [.mapWindow t.window] else [.unmapWindow t.window])

/-- `Thumbnail::update_name`: clear the border-inset inner rectangle of the
offscreen buffer, then draw the character name.  The destination offsets are
`config.border_size as i16`, a `u16` reinterpreted as `i16`. -/
def Thumb.update_name (t : Thumb) (cfg : Config) : List Req :=
  [.renderComposite .CLEAR t.overlay_picture t.overlay_picture 0 0 0 0
      (u16AsI16 cfg.border_size) (u16AsI16 cfg.border_size)
      (sub16u cfg.width (cfg.border_size * 2)) (sub16u cfg.height (cfg.border_size * 2)),
   .imageText t.overlay_pixmap t.overlay_gc cfg.text_x cfg.text_y t.character_name]

/-- `Thumbnail::border`: fill the offscreen buffer with the border color
(focused) or clear it (unfocused), then redraw the name. -/
def Thumb.border (t : Thumb) (cfg : Config) (focused : Bool) : List Req :=
  (if focused then
    [Req.renderComposite .SRC t.border_fill t.overlay_picture 0 0 0 0 0 0
        cfg.width cfg.height]
  else
    [Req.renderComposite .CLEAR t.overlay_picture t.overlay_picture 0 0 0 0 0 0
        cfg.width cfg.height]) ++ t.update_name cfg

/-- The requests issued by `Thumbnail::focus`: one `_NET_ACTIVE_WINDOW`
client-message broadcast to the root window on behalf of the source window,
immediately followed by a flush. -/
def Thumb.focusReqs (t : Thumb) : List Req :=
  [.sendActiveWindow t.root t.src, .flush]

/-- `Thumbnail::reposition`: move the overlay window (no clamping), flush,
and record the new position. -/
def Thumb.reposition (t : Thumb) (x y : Int) : Thumb × List Req :=
  ({ t with x := x, y := y }, [.configureWindow t.window x y, .flush])

/-- `Thumbnail::is_hovered` (all edges inclusive; the `u16` dimensions are
cast to `i16` and added with wrapping, as in the source). -/
def Thumb.is_hovered (t : Thumb) (cfg : Config) (x y : Int) : Bool :=
  decide (t.x ≤ x) && decide (x ≤ iadd16 t.x (u16AsI16 cfg.width)) &&
  decide (t.y ≤ y) && decide (y ≤ iadd16 t.y (u16AsI16 cfg.height))

/-! ### Drop (resource release) -/

/-- The eight server-side resources released by `impl Drop for Thumbnail`. -/
inductive Resource where
  | damage
  | gc
  | overlayPicture
  | srcPicture
  | dstPicture
  | borderFill
  | pixmap
  | window
deriving DecidableEq, Repr

/-- The release order of `impl Drop for Thumbnail`. -/
def dropOrder : List Resource :=
  [.damage, .gc, .overlayPicture, .srcPicture, .dstPicture, .borderFill,
   .pixmap, .window]

/-- The releases actually attempted by the `Drop` impl, given which release
requests fail: the releases are sequenced with `?` inside one closure, so
after a failing release the remaining ones are skipped (and the single error
is logged). -/
def releasesAttempted (fails : Resource → Bool) : List Resource → List Resource
  | [] => []
  | r :: rs => r :: if fails r then [] else releasesAttempted fails rs

/-- `impl Drop for Thumbnail`, projected to which releases are attempted. -/
def dropThumbnail (fails : Resource → Bool) : List Resource :=
  releasesAttempted fails dropOrder

/-! ### Registry -/

/-- The registry `HashMap<Window, Thumbnail>` as an association list keyed by
source window; list order stands for the map's (arbitrary) iteration order. -/
abbrev Registry := List (Nat × Thumb)

/-- Keyed lookup (`HashMap::get`). -/
def lookup : Registry → Nat → Option Thumb
  | [], _ => none
  | (k, t) :: rest, w => if k = w then some t else lookup rest w

/-- Replace the entry at an existing key (`HashMap::get_mut` + assignment). -/
def setEntry : Registry → Nat → Thumb → Registry
  | [], _, _ => []
  | (k, t) :: rest, w, t' => if k = w then (k, t') :: rest else (k, t) :: setEntry rest w t'

/-- `HashMap::insert`: replace an existing entry or add a new one. -/
def insertR (eves : Registry) (w : Nat) (t : Thumb) : Registry :=
  if (lookup eves w).isSome then setEntry eves w t else eves ++ [(w, t)]

/-- `HashMap::remove`. -/
def removeR : Registry → Nat → Registry
  | [], _ => []
  | (k, t) :: rest, w => if k = w then rest else (k, t) :: removeR rest w

/-- Apply `Thumbnail::visibility v` to every registry entry, in iteration
order, collecting the issued requests (the `for ... { visibility(v)? }`
loops of the focus handlers). -/
def visibilityAll (v : Bool) : Registry → Registry × List Req
  | [] => ([], [])
  | (k, t) :: rest =>
    let p := t.visibility v
    let q := visibilityAll v rest
    ((k, p.1) :: q.1, p.2 ++ q.2)

/-- Find the first entry (in iteration order) whose thumbnail satisfies `p`,
and replace it by `f`'s result, collecting `f`'s requests — the
`eves.iter_mut().find(...)` pattern of the pointer-event arms. -/
def findModify (p : Thumb → Bool) (f : Thumb → Thumb × List Req) :
    Registry → Registry × List Req
  | [] => ([], [])
  | (k, t) :: rest =>
    if p t then
      let r := f t
      ((k, r.1) :: rest, r.2)
    else
      let q := findModify p f rest
      ((k, t) :: q.1, q.2)

/-! ### Event handlers (the arms of `handle_event`) -/

/-- The `FocusIn` arm of `handle_event`. -/
def handleFocusIn (cfg : Config) (eves : Registry) (w : Nat) : Registry × List Req :=
  match lookup eves w with
  | none => (eves, [])
  | some t =>
    let t1 : Thumb := { t with minimized := false, focused := true }
    let eves1 := setEntry eves w t1
    let reqs := t1.border cfg true
    if cfg.hide_when_no_focus && eves1.any (fun p => !p.2.visible) then
      let q := visibilityAll true eves1
      (q.1, reqs ++ q.2)
    else
      (eves1, reqs)

/-- The `FocusOut` arm of `handle_event`. -/
def handleFocusOut (cfg : Config) (eves : Registry) (w : Nat) : Registry × List Req :=
  match lookup eves w with
  | none => (eves, [])
  | some t =>
    let t1 : Thumb := { t with focused := false }
    let eves1 := setEntry eves w t1
    let reqs := t1.border cfg false
    if cfg.hide_when_no_focus && eves1.all (fun p => !p.2.focused && !p.2.minimized) then
      let q := visibilityAll false eves1
      (q.1, reqs ++ q.2)
    else
      (eves1, reqs)

/-- The search condition shared by the `ButtonRelease` and `MotionNotify`
arms: visible, mid-drag, and hovered by the pointer. -/
def dragHitTarget (cfg : Config) (rx ry : Int) (t : Thumb) : Bool :=
  t.visible && t.input_state.dragging && t.is_hovered cfg rx ry

/-- The `MotionNotify` arm of `handle_event`: move the first visible,
dragging, hovered thumbnail by the pointer delta since the drag started
(`i16` arithmetic, wrapping). -/
def handleMotion (cfg : Config) (eves : Registry) (rx ry : Int) : Registry × List Req :=
  findModify (dragHitTarget cfg rx ry)
    (fun t =>
      let dx := isub16 rx t.input_state.drag_start.1
      let dy := isub16 ry t.input_state.drag_start.2
      let nx := iadd16 t.input_state.win_start.1 dx
      let ny := iadd16 t.input_state.win_start.2 dy
      t.reposition nx ny)
    eves

/-- The `ButtonRelease` arm of `handle_event`: on the first visible,
dragging, hovered thumbnail, broadcast activation iff the release is at the
press coordinates with the primary button, and end the drag. -/
def handleButtonRelease (cfg : Config) (eves : Registry) (detail : Nat) (rx ry : Int) :
    Registry × List Req :=
  findModify (dragHitTarget cfg rx ry)
    (fun t =>
      ({ t with input_state := { t.input_state with dragging := false } },
       if detail = 1 ∧ t.input_state.drag_start = (rx, ry) then t.focusReqs else []))
    eves

/-- The number of window-activation broadcasts in a request list. -/
def countActivations : List Req → Nat
  | [] => 0
  | .sendActiveWindow _ _ :: rest => countActivations rest + 1
  | _ :: rest => countActivations rest

/-! ### Thumbnail creation and the dispatch loop -/

/-- The per-window environment of `check_and_create_window`:
`notWine` is true when `_NET_WM_PID` is present and the owning process's
executable resolves to something other than a wine preloader (the only case
in which the function rejects the window); `title` is the window's current
`WM_NAME`; `create` abstracts `Thumbnail::new` (geometry query, resource
allocation, …), which may fail. -/
structure WinEnv where
  notWine : Bool
  title : List Char
  create : List Char → Except Unit Thumb

/-- `check_and_create_window`, projected to its registry-relevant result:
`ok none` — not a candidate; `ok (some t)` — thumbnail built;
`error` — a creation failure propagated with `?`. -/
def check_and_create_window (env : WinEnv) : Except Unit (Option Thumb) :=
  if env.notWine then .ok none
  else
    match is_window_eve env.title with
    | some name =>
      match env.create name with
      | .ok t => .ok (some t)
      | .error e => .error e
    | none => .ok none

/-- The startup-scan loop body of `get_eves` over the `_NET_CLIENT_LIST`
windows (the `for w in windows` loop): any `?`-propagated creation failure
aborts the whole scan. -/
def getEvesGo (check : Nat → Except Unit (Option Thumb)) :
    List Nat → Registry → Except Unit Registry
  | [], acc => .ok acc
  | w :: ws, acc =>
    match check w with
    | .error e => .error e
    | .ok none => getEvesGo check ws acc
    | .ok (some t) => getEvesGo check ws (insertR acc w t)

/-- `get_eves`: build the initial registry from the client list. -/
def get_eves (check : Nat → Except Unit (Option Thumb)) (windows : List Nat) :
    Except Unit Registry :=
  getEvesGo check windows []

/-- The `CreateNotify` arm of `handle_event` (also used for the
qualifying-title `PropertyNotify` insertion): the registry is only modified
after `check_and_create_window` succeeds with a thumbnail. -/
def handleCreateNotify (check : Nat → Except Unit (Option Thumb)) (eves : Registry)
    (w : Nat) : Except Unit Registry :=
  match check w with
  | .error e => .error e
  | .ok none => .ok eves
  | .ok (some t) => .ok (insertR eves w t)

/-- Events consumed by the modelled fragment of the dispatch loop. -/
inductive Ev where
  | create (w : Nat)
  | destroy (w : Nat)
  | other
deriving DecidableEq, Repr

/-- One iteration of the `main` loop: `handle_event`'s error is caught
(`inspect_err` + discard), leaving the registry untouched. -/
def loopStep (check : Nat → Except Unit (Option Thumb)) (eves : Registry) :
    Ev → Registry
  | .create w =>
    match handleCreateNotify check eves w with
    | .ok r => r
    | .error _ => eves
  | .destroy w => removeR eves w
  | .other => eves

/-- The dispatch loop of `main` over a finite event prefix. -/
def runLoop (check : Nat → Except Unit (Option Thumb)) (eves : Registry) :
    List Ev → Registry
  | [] => eves
  | e :: es => runLoop check (loopStep check eves e) es

/-! ### The `PropertyNotify` arm -/

/-- The atom of a `PropertyNotify` event, classified against the two atoms
the handler interns (`WM_NAME`, `_NET_WM_STATE`); distinct names intern to
distinct atoms. -/
inductive AtomKind where
  | wmName
  | netWmState
  | other
deriving DecidableEq, Repr

/-- The `PropertyNotify` arm of `handle_event`, at the registry level.
`hiddenInState` is whether the freshly-read `_NET_WM_STATE` value contains
`_NET_WM_STATE_HIDDEN`.  First arm: known window with qualifying title —
rename.  Second arm: `WM_NAME` change on any other window — classify and
insert (this is how a window that only later acquires a qualifying title
becomes tracked).  Third arm: hidden state asserted on a known window —
mark minimized (its banner drawing is request-level and not modelled). -/
def handlePropertyNotify (env : WinEnv) (hiddenInState : Bool) (eves : Registry)
    (w : Nat) (atom : AtomKind) : Except Unit Registry :=
  if atom = .wmName ∧ (lookup eves w).isSome ∧ (is_window_eve env.title).isSome then
    match lookup eves w, is_window_eve env.title with
    | some t, some name => .ok (setEntry eves w { t with character_name := name })
    | _, _ => .ok eves
  else if atom = .wmName then
    match check_and_create_window env with
    | .error e => .error e
    | .ok (some t) => .ok (insertR eves w t)
    | .ok none => .ok eves
  else if atom = .netWmState ∧ hiddenInState then
    match lookup eves w with
    | some t => .ok (setEntry eves w { t with minimized := true })
    | none => .ok eves
  else .ok eves

/-! ### Concrete instances for witnesses and counterexamples -/

/-- The literal defaults of `Config::new` (no environment overrides). -/
def cfg0 : Config :=
  { width := 240, height := 135, opacity := 0xC0000000, border_size := 5,
    border_color := { red := 0xFFFF, green := 0, blue := 0, alpha := 0x7F00 },
    text_x := 10, text_y := 125,
    text_foreground := premultiply_argb32 0xFFFFFFFF,
    text_background := premultiply_argb32 0x7F000000,
    hide_when_no_focus := false }

/-- `cfg0` with hide-mode enabled. -/
def cfgH : Config := { cfg0 with hide_when_no_focus := true }

/-- A freshly-created thumbnail (flags as set by `Thumbnail::new`). -/
def t0 : Thumb :=
  { window := 100, x := 0, y := 0, border_fill := 101, src_picture := 102,
    dst_picture := 103, overlay_gc := 104, overlay_pixmap := 105,
    overlay_picture := 106, character_name := "Pilot1".toList,
    focused := false, visible := true, minimized := false,
    src := 7, root := 1, damage := 108,
    input_state := { dragging := false, drag_start := (0, 0), win_start := (0, 0) } }

/-- A hidden second thumbnail. -/
def tB : Thumb := { t0 with window := 200, src := 8, visible := false }

/-- A two-entry registry: one visible thumbnail (key 1), one hidden (key 2). -/
def eves4 : Registry := [(1, t0), (2, tB)]

/-- A mid-drag thumbnail at (90, 90), drag started by a press at (100, 100). -/
def tdrag : Thumb :=
  { t0 with
    x := 90
    y := 90
    input_state := { dragging := true, drag_start := (100, 100), win_start := (90, 90) } }

/-- A creation oracle that fails on window 1 and succeeds on every other
window. -/
def ceCheck : Nat → Except Unit (Option Thumb) :=
  fun w => if w = 1 then .error () else .ok (some t0)

/-- A window environment for a wine-hosted window titled `EVE - Pilot1`
whose thumbnail creation succeeds. -/
def envW : WinEnv :=
  { notWine := false, title := "EVE - Pilot1".toList,
    create := fun name => .ok { t0 with character_name := name } }

end EveL

namespace EveL

/-! ### Helper lemmas -/

theorem wrap16_eq_self (z : Int) (h1 : -32768 ≤ z) (h2 : z ≤ 32767) : wrap16 z = z := by
  unfold wrap16
  omega

theorem releasesAttempted_isLead (fails : Resource → Bool) :
    ∀ l : List Resource, ∃ s, l = releasesAttempted fails l ++ s := by
  intro l
  induction l with
  | nil => exact ⟨[], rfl⟩
  | cons r rs ih =>
    by_cases h : fails r = true
    · exact ⟨rs, by simp [releasesAttempted, h]⟩
    · obtain ⟨s, hs⟩ := ih
      refine ⟨s, ?_⟩
      simp only [releasesAttempted, h]
      simpa using hs

theorem dropLeading_self_append (p s : List Char) : dropLeading p (p ++ s) = some s := by
  induction p with
  | nil => rfl
  | cons c p ih => simp [dropLeading, ih]

theorem dropLeading_eq_some (p : List Char) :
    ∀ t s : List Char, dropLeading p t = some s → t = p ++ s := by
  induction p with
  | nil =>
    intro t s h
    simp [dropLeading] at h
    simp [h]
  | cons c p ih =>
    intro t s h
    cases t with
    | nil => simp [dropLeading] at h
    | cons d t =>
      by_cases hc : c = d
      · subst hc
        simp [dropLeading] at h
        simpa using ih t s h
      · simp [dropLeading, hc] at h

theorem getEvesGo_error (check : Nat → Except Unit (Option Thumb)) (w : Nat)
    (h : check w = .error ()) :
    ∀ (ws1 ws2 : List Nat) (acc : Registry),
      getEvesGo check (ws1 ++ w :: ws2) acc = .error () := by
  intro ws1
  induction ws1 with
  | nil =>
    intro ws2 acc
    simp [getEvesGo, h]
  | cons a ws1 ih =>
    intro ws2 acc
    rcases hc : check a with e | o
    · cases e
      simp [getEvesGo, hc]
    · rcases o with _ | t
      · simp [getEvesGo, hc, ih]
      · simp [getEvesGo, hc, ih]

/-! ### Claim C1 -/

/-- C1 (counterexample): the claim that every one of the eight releases is
attempted independently is false.  In `impl Drop for Thumbnail` the releases
are chained with `?` inside a single closure, so when the very first release
(the damage subscription) fails, none of the remaining seven releases — the
GC among them — is attempted. -/
theorem c1_counterexample :
    dropThumbnail (fun r => decide (r = .damage)) = [.damage] ∧
    Resource.gc ∉ dropThumbnail (fun r => decide (r = .damage)) := by
  decide

/-- C1 (amended): the eight releases are attempted in dependency order,
stopping at the first failing release: the attempted releases always form a
leading segment of the release order, and all eight are attempted exactly
when the first seven releases succeed (a failure of the final release skips
nothing further). -/
theorem c1_amended (fails : Resource → Bool) :
    (∃ s, dropOrder = dropThumbnail fails ++ s) ∧
    (dropThumbnail fails = dropOrder ↔
      (fails .damage = false ∧ fails .gc = false ∧ fails .overlayPicture = false ∧
       fails .srcPicture = false ∧ fails .dstPicture = false ∧
       fails .borderFill = false ∧ fails .pixmap = false)) := by
  constructor
  · exact releasesAttempted_isLead fails dropOrder
  · cases h1 : fails .damage <;> cases h2 : fails .gc <;>
      cases h3 : fails .overlayPicture <;> cases h4 : fails .srcPicture <;>
      cases h5 : fails .dstPicture <;> cases h6 : fails .borderFill <;>
      cases h7 : fails .pixmap <;>
      simp [dropThumbnail, dropOrder, releasesAttempted, h1, h2, h3, h4, h5, h6, h7]

/-! ### Claim C2 -/

/-- C2 (counterexample): the claim that a creation failure aborts only that
creation and that processing continues with other windows is false on the
startup scan.  With a creation oracle failing on window 1 and succeeding on
window 2, `get_eves` over the client list `[1, 2]` propagates the error:
window 2 is never given an entry, and in `main` the `?` on `get_eves` makes
this fatal. -/
theorem c2_counterexample :
    ceCheck 1 = .error () ∧ ceCheck 2 = .ok (some t0) ∧
    get_eves ceCheck [1, 2] = .error () :=
  ⟨rfl, rfl, rfl⟩

/-- C2 (amended): on the event path (`CreateNotify`), a creation failure
aborts only that creation — no entry is inserted, the registry is unchanged,
and the dispatch loop continues with the remaining events exactly as if the
event had not occurred; during the startup scan, however, a creation
failure aborts the entire scan (the error propagates out of `get_eves`). -/
theorem c2_amended (check : Nat → Except Unit (Option Thumb)) (eves : Registry)
    (w : Nat) (es : List Ev) (ws1 ws2 : List Nat)
    (h : check w = .error ()) :
    handleCreateNotify check eves w = .error () ∧
    runLoop check eves (Ev.create w :: es) = runLoop check eves es ∧
    get_eves check (ws1 ++ w :: ws2) = .error () := by
  refine ⟨?_, ?_, ?_⟩
  · simp [handleCreateNotify, h]
  · simp [runLoop, loopStep, handleCreateNotify, h]
  · exact getEvesGo_error check w h ws1 ws2 []

/-- C2 (witness): the amended statement at the concrete failing oracle. -/
theorem c2_amended_witness :
    ceCheck 1 = .error () ∧
    (handleCreateNotify ceCheck [] 1 = .error () ∧
     runLoop ceCheck [] [Ev.create 1, Ev.other] = runLoop ceCheck [] [Ev.other] ∧
     get_eves ceCheck ([] ++ 1 :: [2]) = .error ()) :=
  ⟨rfl, c2_amended ceCheck [] 1 [Ev.other] [] [2] rfl⟩

/-! ### Claim C3 -/

/-- C3 (counterexample): the claim that parsing `0xFF0000FF` yields a full
red channel is false.  In the `0xAARRGGBB` layout, `0xFF0000FF` has alpha
`0xFF`, red `0x00`, green `0x00`, blue `0xFF`, so `Config::parse_color`
produces zero red and full blue. -/
theorem c3_counterexample :
    (parse_color 0xFF0000FF).red = 0 ∧ (parse_color 0xFF0000FF).red ≠ 0xFFFF ∧
    (parse_color 0xFF0000FF).blue = 0xFFFF := by
  decide

/-- C3 (amended): parsing `0xFF0000FF` produces a color with the blue
channel at its maximum, red and green zero, and alpha at its maximum, each
8-bit channel scaled to the protocol's 16-bit channel maximum (`0xFF` maps
to `0xFFFF`, `0x00` to `0`). -/
theorem c3_amended :
    parse_color 0xFF0000FF = { red := 0, green := 0, blue := 0xFFFF, alpha := 0xFFFF } ∧
    scale 0xFF = 0xFFFF ∧ scale 0 = 0 := by
  decide

/-! ### Claim C4 -/

/-- Keyed replacement preserves a successful lookup, now yielding the new
thumbnail. -/
theorem lookup_setEntry_self (eves : Registry) (w : Nat) (t t' : Thumb)
    (h : lookup eves w = some t) : lookup (setEntry eves w t') w = some t' := by
  induction eves with
  | nil => simp [lookup] at h
  | cons hd tl ih =>
    rcases hd with ⟨k, u⟩
    by_cases hk : k = w
    · subst hk
      simp [lookup, setEntry]
    · simp only [lookup, setEntry, hk, if_false] at h ⊢
      exact ih h

/-- `visibilityAll` acts entrywise on lookups. -/
theorem lookup_visibilityAll (v : Bool) (l : Registry) (w : Nat) :
    lookup (visibilityAll v l).1 w = (lookup l w).map (fun t => (t.visibility v).1) := by
  induction l with
  | nil => simp [visibilityAll, lookup]
  | cons hd tl ih =>
    rcases hd with ⟨k, u⟩
    by_cases hk : k = w
    · subst hk
      simp [visibilityAll, lookup]
    · simp [visibilityAll, lookup, hk, ih]

/-- After `visibility v` the flag equals `v` (set or already equal). -/
theorem visibility_fst_visible (t : Thumb) (v : Bool) : ((t.visibility v).1).visible = v := by
  unfold Thumb.visibility
  split
  · next h => simp [← h]
  · rfl

/-- `visibility` leaves the `focused` flag unchanged. -/
theorem visibility_fst_focused (t : Thumb) (v : Bool) :
    ((t.visibility v).1).focused = t.focused := by
  unfold Thumb.visibility
  split <;> rfl

/-- `visibility` leaves the `minimized` flag unchanged. -/
theorem visibility_fst_minimized (t : Thumb) (v : Bool) :
    ((t.visibility v).1).minimized = t.minimized := by
  unfold Thumb.visibility
  split <;> rfl

/-- Every entry of `visibilityAll v`'s result has its `visible` flag at `v`. -/
theorem mem_visibilityAll (v : Bool) (l : Registry) (p : Nat × Thumb)
    (h : p ∈ (visibilityAll v l).1) : p.2.visible = v := by
  induction l with
  | nil => simp [visibilityAll] at h
  | cons hd tl ih =>
    rcases hd with ⟨k, u⟩
    simp only [visibilityAll, List.mem_cons] at h
    rcases h with h | h
    · rw [h]
      exact visibility_fst_visible u v
    · exact ih h

/-- Replacing an entry by one with the same `visible` flag does not change
whether some entry is hidden. -/
theorem any_notVisible_setEntry (eves : Registry) (w : Nat) (t t1 : Thumb)
    (h : lookup eves w = some t) (hv : t1.visible = t.visible) :
    ((setEntry eves w t1).any fun p => !p.2.visible) = (eves.any fun p => !p.2.visible) := by
  induction eves with
  | nil => rfl
  | cons hd tl ih =>
    rcases hd with ⟨k, u⟩
    by_cases hk : k = w
    · subst hk
      simp only [lookup, if_true, eq_self_iff_true, Option.some.injEq] at h
      rw [setEntry, if_pos rfl]
      simp [← h, hv]
    · rw [lookup, if_neg hk] at h
      rw [setEntry, if_neg hk]
      simp [ih h]

/-- With duplicate-free keys, an entry of `setEntry eves w t'` is either the
replacement or an untouched entry at a different key. -/
theorem mem_setEntry (eves : Registry) (w : Nat) (t' : Thumb) (p : Nat × Thumb)
    (hnd : (eves.map Prod.fst).Nodup) (h : p ∈ setEntry eves w t') :
    p = (w, t') ∨ (p ∈ eves ∧ p.1 ≠ w) := by
  induction eves with
  | nil => simp [setEntry] at h
  | cons hd tl ih =>
    rcases hd with ⟨k, u⟩
    simp only [List.map_cons, List.nodup_cons] at hnd
    by_cases hk : k = w
    · subst hk
      rw [setEntry, if_pos rfl] at h
      rw [List.mem_cons] at h
      rcases h with h | h
      · exact Or.inl h
      · refine Or.inr ⟨List.mem_cons_of_mem _ h, ?_⟩
        intro hpw
        exact hnd.1 (hpw ▸ List.mem_map_of_mem Prod.fst h)
    · rw [setEntry, if_neg hk] at h
      rw [List.mem_cons] at h
      rcases h with h | h
      · exact Or.inr ⟨by simp [h], by simp [h, hk]⟩
      · rcases ih hnd.2 h with h1 | ⟨h1, h2⟩
        · exact Or.inl h1
        · exact Or.inr ⟨List.mem_cons_of_mem _ h1, h2⟩

/-- The `FocusIn` arm clears `minimized` and sets `focused` on the tracked
thumbnail. -/
theorem focusIn_flags (cfg : Config) (eves : Registry) (w : Nat) (t : Thumb)
    (hl : lookup eves w = some t) :
    ∃ t1, lookup (handleFocusIn cfg eves w).1 w = some t1 ∧
      t1.minimized = false ∧ t1.focused = true := by
  unfold handleFocusIn
  rw [hl]
  dsimp only
  split
  · refine ⟨(({ t with minimized := false, focused := true } : Thumb).visibility true).1,
      ?_, ?_, ?_⟩
    · rw [lookup_visibilityAll, lookup_setEntry_self eves w t _ hl]
      rfl
    · rw [visibility_fst_minimized]
    · rw [visibility_fst_focused]
  · exact ⟨_, lookup_setEntry_self eves w t _ hl, rfl, rfl⟩

/-- The `FocusIn` arm starts by redrawing the border focused. -/
theorem focusIn_border (cfg : Config) (eves : Registry) (w : Nat) (t : Thumb)
    (hl : lookup eves w = some t) :
    ∃ rest, (handleFocusIn cfg eves w).2
      = Thumb.border { t with minimized := false, focused := true } cfg true ++ rest := by
  unfold handleFocusIn
  rw [hl]
  dsimp only
  split
  · exact ⟨_, rfl⟩
  · exact ⟨[], (List.append_nil _).symm⟩

/-- With hide-mode on and some thumbnail hidden, the `FocusIn` arm makes
every thumbnail visible. -/
theorem focusIn_reveal (cfg : Config) (eves : Registry) (w : Nat) (t : Thumb)
    (hl : lookup eves w = some t) (hhide : cfg.hide_when_no_focus = true)
    (hex : ∃ p ∈ eves, p.2.visible = false) :
    ∀ p ∈ (handleFocusIn cfg eves w).1, p.2.visible = true := by
  have hany : ((setEntry eves w { t with minimized := false, focused := true }).any
      fun p => !p.2.visible) = true := by
    rw [any_notVisible_setEntry eves w t { t with minimized := false, focused := true }
      hl rfl]
    rw [List.any_eq_true]
    obtain ⟨p, hp, hv⟩ := hex
    exact ⟨p, hp, by simp [hv]⟩
  unfold handleFocusIn
  rw [hl]
  dsimp only
  simp only [hhide, hany, Bool.and_self, if_true]
  intro p hp
  exact mem_visibilityAll true _ p hp

/-- The `FocusOut` arm clears `focused` on the tracked thumbnail. -/
theorem focusOut_flags (cfg : Config) (eves : Registry) (w : Nat) (t : Thumb)
    (hl : lookup eves w = some t) :
    ∃ t2, lookup (handleFocusOut cfg eves w).1 w = some t2 ∧ t2.focused = false := by
  unfold handleFocusOut
  rw [hl]
  dsimp only
  split
  · refine ⟨(({ t with focused := false } : Thumb).visibility false).1, ?_, ?_⟩
    · rw [lookup_visibilityAll, lookup_setEntry_self eves w t _ hl]
      rfl
    · rw [visibility_fst_focused]
  · exact ⟨_, lookup_setEntry_self eves w t _ hl, rfl⟩

/-- The `FocusOut` arm starts by redrawing the border unfocused. -/
theorem focusOut_border (cfg : Config) (eves : Registry) (w : Nat) (t : Thumb)
    (hl : lookup eves w = some t) :
    ∃ rest, (handleFocusOut cfg eves w).2
      = Thumb.border { t with focused := false } cfg false ++ rest := by
  unfold handleFocusOut
  rw [hl]
  dsimp only
  split
  · exact ⟨_, rfl⟩
  · exact ⟨[], (List.append_nil _).symm⟩

/-- With hide-mode on and no thumbnail focused or minimized after the clear,
the `FocusOut` arm hides every thumbnail. -/
theorem focusOut_hide (cfg : Config) (eves : Registry) (w : Nat) (t : Thumb)
    (hnd : (eves.map Prod.fst).Nodup)
    (hl : lookup eves w = some t) (hhide : cfg.hide_when_no_focus = true)
    (hmin : t.minimized = false)
    (hothers : ∀ p ∈ eves, p.1 ≠ w → p.2.focused = false ∧ p.2.minimized = false) :
    ∀ p ∈ (handleFocusOut cfg eves w).1, p.2.visible = false := by
  have hall : ((setEntry eves w { t with focused := false }).all
      fun p => !p.2.focused && !p.2.minimized) = true := by
    rw [List.all_eq_true]
    intro p hp
    rcases mem_setEntry eves w _ p hnd hp with h | ⟨hmem, hne⟩
    · rw [h]
      simp [hmin]
    · obtain ⟨hf, hm⟩ := hothers p hmem hne
      simp [hf, hm]
  unfold handleFocusOut
  rw [hl]
  dsimp only
  simp only [hhide, hall, Bool.and_self, if_true]
  intro p hp
  exact mem_visibilityAll false _ p hp

/-- C4: for a focus-gained event on a tracked thumbnail the handler clears
`minimized`, sets `focused`, redraws the border focused, and — with
hide-mode enabled and some thumbnail hidden — makes every thumbnail
visible; for a focus-lost event it clears `focused`, redraws the border
unfocused, and — with hide-mode enabled and no thumbnail focused or
minimized after the clear — hides every thumbnail. -/
theorem c4_focus_handlers (cfg : Config) (eves : Registry) (w : Nat) (t : Thumb)
    (hnd : (eves.map Prod.fst).Nodup)
    (hl : lookup eves w = some t) :
    (∃ t1, lookup (handleFocusIn cfg eves w).1 w = some t1 ∧
       t1.minimized = false ∧ t1.focused = true) ∧
    (∃ rest, (handleFocusIn cfg eves w).2
       = Thumb.border { t with minimized := false, focused := true } cfg true ++ rest) ∧
    (cfg.hide_when_no_focus = true → (∃ p ∈ eves, p.2.visible = false) →
       ∀ p ∈ (handleFocusIn cfg eves w).1, p.2.visible = true) ∧
    (∃ t2, lookup (handleFocusOut cfg eves w).1 w = some t2 ∧ t2.focused = false) ∧
    (∃ rest, (handleFocusOut cfg eves w).2
       = Thumb.border { t with focused := false } cfg false ++ rest) ∧
    (cfg.hide_when_no_focus = true → t.minimized = false →
       (∀ p ∈ eves, p.1 ≠ w → p.2.focused = false ∧ p.2.minimized = false) →
       ∀ p ∈ (handleFocusOut cfg eves w).1, p.2.visible = false) :=
  ⟨focusIn_flags cfg eves w t hl, focusIn_border cfg eves w t hl,
   fun hh hex => focusIn_reveal cfg eves w t hl hh hex,
   focusOut_flags cfg eves w t hl, focusOut_border cfg eves w t hl,
   fun hh hm ho => focusOut_hide cfg eves w t hnd hl hh hm ho⟩

/-- C4 (witness): with hide-mode on and a hidden second thumbnail, focus-in
on the first reveals all, and focus-out (nothing focused or minimized)
hides all. -/
theorem c4_focus_handlers_witness :
    lookup eves4 1 = some t0 ∧
    (∃ t1, lookup (handleFocusIn cfgH eves4 1).1 1 = some t1 ∧
       t1.minimized = false ∧ t1.focused = true) ∧
    (∀ p ∈ (handleFocusIn cfgH eves4 1).1, p.2.visible = true) ∧
    (∀ p ∈ (handleFocusOut cfgH eves4 1).1, p.2.visible = false) :=
  ⟨rfl,
   (c4_focus_handlers cfgH eves4 1 t0 (by decide) rfl).1,
   (c4_focus_handlers cfgH eves4 1 t0 (by decide) rfl).2.2.1 rfl
     ⟨(2, tB), by simp [eves4], rfl⟩,
   (c4_focus_handlers cfgH eves4 1 t0 (by decide) rfl).2.2.2.2.2 rfl rfl (by decide)⟩

/-! ### Claims C5 and C6 -/

/-- `eves.iter_mut().find(...)`: when every entry before `(k, t)` fails the
search condition and `t` satisfies it, `findModify` rewrites exactly that
entry. -/
theorem findModify_first (P : Thumb → Bool) (f : Thumb → Thumb × List Req)
    (pre post : Registry) (k : Nat) (t : Thumb)
    (hpre : ∀ p ∈ pre, P p.2 = false) (ht : P t = true) :
    findModify P f (pre ++ (k, t) :: post) = (pre ++ (k, (f t).1) :: post, (f t).2) := by
  induction pre with
  | nil => simp [findModify, ht]
  | cons hd tl ih =>
    have h0 : P hd.2 = false := hpre hd (by simp)
    rcases hd with ⟨k0, u0⟩
    simp only [List.cons_append, findModify, h0, Bool.false_eq_true, if_false,
      List.append_eq]
    rw [ih (fun p hp => hpre p (by simp [hp]))]

/-- C5 (counterexample): the claim that every pointer-motion event during an
active drag repositions the overlay is false.  `tdrag` is mid-drag and
visible, yet a motion event at (1000, 1000) — outside its bounding
rectangle — matches no thumbnail: no reposition request is issued and the
stored position is unchanged. -/
theorem c5_counterexample :
    tdrag.input_state.dragging = true ∧
    handleMotion cfg0 [(7, tdrag)] 1000 1000 = ([(7, tdrag)], []) := by
  constructor
  · rfl
  · rfl

/-- C5 (amended): for every pointer-motion event, if a thumbnail is the
first (in registry iteration order) that is visible, mid-drag, and hovered
by the pointer, the overlay window is repositioned unconditionally (no
bounds clamping) to drag-start window position plus (current pointer minus
drag-start pointer), and the stored position field is updated to the newly
requested position — stated here on inputs where the `i16` arithmetic does
not wrap. -/
theorem c5_amended (cfg : Config) (pre post : Registry) (k : Nat) (t : Thumb) (rx ry : Int)
    (hpre : ∀ p ∈ pre, dragHitTarget cfg rx ry p.2 = false)
    (ht : dragHitTarget cfg rx ry t = true)
    (hdx1 : -32768 ≤ rx - t.input_state.drag_start.1)
    (hdx2 : rx - t.input_state.drag_start.1 ≤ 32767)
    (hdy1 : -32768 ≤ ry - t.input_state.drag_start.2)
    (hdy2 : ry - t.input_state.drag_start.2 ≤ 32767)
    (hnx1 : -32768 ≤ t.input_state.win_start.1 + (rx - t.input_state.drag_start.1))
    (hnx2 : t.input_state.win_start.1 + (rx - t.input_state.drag_start.1) ≤ 32767)
    (hny1 : -32768 ≤ t.input_state.win_start.2 + (ry - t.input_state.drag_start.2))
    (hny2 : t.input_state.win_start.2 + (ry - t.input_state.drag_start.2) ≤ 32767) :
    handleMotion cfg (pre ++ (k, t) :: post) rx ry =
      (pre ++ (k, { t with
          x := t.input_state.win_start.1 + (rx - t.input_state.drag_start.1)
          y := t.input_state.win_start.2 + (ry - t.input_state.drag_start.2) }) :: post,
       [.configureWindow t.window
          (t.input_state.win_start.1 + (rx - t.input_state.drag_start.1))
          (t.input_state.win_start.2 + (ry - t.input_state.drag_start.2)),
        .flush]) := by
  unfold handleMotion
  rw [findModify_first _ _ pre post k t hpre ht]
  have ex : isub16 rx t.input_state.drag_start.1 = rx - t.input_state.drag_start.1 :=
    wrap16_eq_self _ hdx1 hdx2
  have ey : isub16 ry t.input_state.drag_start.2 = ry - t.input_state.drag_start.2 :=
    wrap16_eq_self _ hdy1 hdy2
  simp only [Thumb.reposition, ex, ey]
  have fx : iadd16 t.input_state.win_start.1 (rx - t.input_state.drag_start.1)
      = t.input_state.win_start.1 + (rx - t.input_state.drag_start.1) :=
    wrap16_eq_self _ hnx1 hnx2
  have fy : iadd16 t.input_state.win_start.2 (ry - t.input_state.drag_start.2)
      = t.input_state.win_start.2 + (ry - t.input_state.drag_start.2) :=
    wrap16_eq_self _ hny1 hny2
  rw [fx, fy]

/-- C5 (witness): the spec's drag scenario — press at (100, 100) on a
thumbnail at (90, 90), motion to (130, 115) moves it by (+30, +15). -/
theorem c5_amended_witness :
    dragHitTarget cfg0 130 115 tdrag = true ∧
    handleMotion cfg0 [(7, tdrag)] 130 115 =
      ([(7, { tdrag with x := 120, y := 105 })],
       [.configureWindow tdrag.window 120 105, .flush]) :=
  ⟨by decide,
   c5_amended cfg0 [] [] 7 tdrag 130 115 (by simp) (by decide) (by decide) (by decide)
     (by decide) (by decide) (by decide) (by decide) (by decide) (by decide)⟩

/-- C6: for a button release on the first visible, mid-drag thumbnail
hovered by the release coordinates: exactly one window-activation broadcast
addressed to the source window (immediately followed by a flush) is issued
iff the release coordinates equal the press coordinates and the primary
button (detail 1) was used; in all cases the drag sub-state is ended. -/
theorem c6_button_release (cfg : Config) (pre post : Registry) (k : Nat) (t : Thumb)
    (detail : Nat) (rx ry : Int)
    (hpre : ∀ p ∈ pre, dragHitTarget cfg rx ry p.2 = false)
    (ht : dragHitTarget cfg rx ry t = true) :
    (handleButtonRelease cfg (pre ++ (k, t) :: post) detail rx ry).1 =
      pre ++ (k, { t with input_state := { t.input_state with dragging := false } }) :: post ∧
    ((detail = 1 ∧ t.input_state.drag_start = (rx, ry)) →
      (handleButtonRelease cfg (pre ++ (k, t) :: post) detail rx ry).2 =
        [.sendActiveWindow t.root t.src, .flush]) ∧
    (¬(detail = 1 ∧ t.input_state.drag_start = (rx, ry)) →
      (handleButtonRelease cfg (pre ++ (k, t) :: post) detail rx ry).2 = []) ∧
    countActivations (handleButtonRelease cfg (pre ++ (k, t) :: post) detail rx ry).2 =
      (if detail = 1 ∧ t.input_state.drag_start = (rx, ry) then 1 else 0) := by
  unfold handleButtonRelease
  rw [findModify_first _ _ pre post k t hpre ht]
  refine ⟨rfl, ?_, ?_, ?_⟩
  · intro hc
    simp [Thumb.focusReqs, hc]
  · intro hc
    simp [hc]
  · by_cases hc : detail = 1 ∧ t.input_state.drag_start = (rx, ry)
    · simp [Thumb.focusReqs, hc, countActivations]
    · simp [hc, countActivations]

/-- C6 (witness): press and release at identical coordinates with the
primary button issue the activation broadcast and the flush. -/
theorem c6_button_release_witness :
    dragHitTarget cfg0 100 100 tdrag = true ∧
    (handleButtonRelease cfg0 [(7, tdrag)] 1 100 100).2 =
      [.sendActiveWindow tdrag.root tdrag.src, .flush] :=
  ⟨by decide,
   (c6_button_release cfg0 [] [] 7 tdrag 1 100 100 (by simp) (by decide)).2.1 ⟨rfl, rfl⟩⟩

/-! ### Claim C7 -/

/-- C7: `Thumbnail::visibility` is idempotent — a call matching the current
flag issues no request and mutates nothing; a differing call sets the flag
and issues exactly one map (true) or unmap (false) request. -/
theorem c7_visibility (t : Thumb) (v : Bool) :
    (v = t.visible → t.visibility v = (t, [])) ∧
    (v ≠ t.visible →
      t.visibility v =
        ({ t with visible := v },
         if v then [.mapWindow t.window] else [.unmapWindow t.window])) := by
  constructor <;> intro h <;> simp [Thumb.visibility, h]

/-- C7 (witness): both branches at a concrete visible thumbnail. -/
theorem c7_visibility_witness :
    t0.visibility true = (t0, []) ∧
    t0.visibility false = ({ t0 with visible := false }, [.unmapWindow t0.window]) :=
  ⟨(c7_visibility t0 true).1 rfl, (c7_visibility t0 false).2 (by decide)⟩

/-! ### Claim C8 -/

/-- Packing four 8-bit fields with shifts and ors equals the corresponding
weighted sum. -/
theorem pack_or (a r g b : Nat) (hr : r < 256) (hg : g < 256) (hb : b < 256) :
    (a <<< 24) ||| (r <<< 16) ||| (g <<< 8) ||| b
      = 16777216 * a + 65536 * r + 256 * g + b := by
  have hb8 : b < 2 ^ 8 := by simpa using hb
  have e1 : (g <<< 8) ||| b = 2 ^ 8 * g + b := by
    rw [Nat.shiftLeft_eq, Nat.mul_comm]
    exact (Nat.mul_add_lt_is_or hb8 g).symm
  have h16 : 2 ^ 8 * g + b < 2 ^ 16 := by
    have a1 : (2 : Nat) ^ 8 = 256 := by norm_num
    have a2 : (2 : Nat) ^ 16 = 65536 := by norm_num
    rw [a1, a2]
    omega
  have e2 : (r <<< 16) ||| ((g <<< 8) ||| b) = 2 ^ 16 * r + (2 ^ 8 * g + b) := by
    rw [e1, Nat.shiftLeft_eq, Nat.mul_comm]
    exact (Nat.mul_add_lt_is_or h16 r).symm
  have h24 : 2 ^ 16 * r + (2 ^ 8 * g + b) < 2 ^ 24 := by
    have a1 : (2 : Nat) ^ 8 = 256 := by norm_num
    have a2 : (2 : Nat) ^ 16 = 65536 := by norm_num
    have a3 : (2 : Nat) ^ 24 = 16777216 := by norm_num
    rw [a1, a2, a3]
    omega
  have e3 : (a <<< 24) ||| ((r <<< 16) ||| ((g <<< 8) ||| b))
      = 2 ^ 24 * a + (2 ^ 16 * r + (2 ^ 8 * g + b)) := by
    rw [e2, Nat.shiftLeft_eq, Nat.mul_comm]
    exact (Nat.mul_add_lt_is_or h24 a).symm
  calc (a <<< 24) ||| (r <<< 16) ||| (g <<< 8) ||| b
      = (a <<< 24) ||| ((r <<< 16) ||| ((g <<< 8) ||| b)) := by
        rw [Nat.or_assoc, Nat.or_assoc]
    _ = 2 ^ 24 * a + (2 ^ 16 * r + (2 ^ 8 * g + b)) := e3
    _ = 16777216 * a + 65536 * r + 256 * g + b := by ring

/-- C8: `premultiply_argb32` multiplies each 8-bit RGB channel by the alpha
channel and divides by 255 with truncation, leaving the alpha channel
unchanged; alpha 255 leaves the whole word unchanged and alpha 0 zeroes all
RGB channels (the result is 0). -/
theorem c8_premultiply (argb : Nat) (h : argb < 2 ^ 32) :
    (premultiply_argb32 argb >>> 24) &&& 0xFF = (argb >>> 24) &&& 0xFF ∧
    (premultiply_argb32 argb >>> 16) &&& 0xFF
      = ((argb >>> 16) &&& 0xFF) * ((argb >>> 24) &&& 0xFF) / 255 ∧
    (premultiply_argb32 argb >>> 8) &&& 0xFF
      = ((argb >>> 8) &&& 0xFF) * ((argb >>> 24) &&& 0xFF) / 255 ∧
    premultiply_argb32 argb &&& 0xFF
      = (argb &&& 0xFF) * ((argb >>> 24) &&& 0xFF) / 255 ∧
    ((argb >>> 24) &&& 0xFF = 255 → premultiply_argb32 argb = argb) ∧
    ((argb >>> 24) &&& 0xFF = 0 → premultiply_argb32 argb = 0) := by
  have hand : ∀ x : Nat, x &&& 0xFF = x % 256 := by
    intro x
    have hx := Nat.and_pow_two_sub_one_eq_mod x 8
    norm_num at hx
    exact hx
  have hmul : ∀ x y : Nat, x < 256 → y < 256 → x * y / 255 < 256 := by
    intro x y hx hy
    have h1 : x * y ≤ 65025 := by
      calc x * y ≤ 255 * 255 := Nat.mul_le_mul (by omega) (by omega)
        _ = 65025 := by norm_num
    have h2 : x * y / 255 ≤ 65025 / 255 := Nat.div_le_div_right h1
    norm_num at h2
    exact lt_of_le_of_lt h2 (by norm_num)
  have hA0 : (argb >>> 24) &&& 0xFF < 256 := by
    rw [hand]
    exact Nat.mod_lt _ (by norm_num)
  have hR0 : (argb >>> 16) &&& 0xFF < 256 := by
    rw [hand]
    exact Nat.mod_lt _ (by norm_num)
  have hG0 : (argb >>> 8) &&& 0xFF < 256 := by
    rw [hand]
    exact Nat.mod_lt _ (by norm_num)
  have hB0 : argb &&& 0xFF < 256 := by
    rw [hand]
    exact Nat.mod_lt _ (by norm_num)
  have hRP := hmul _ _ hR0 hA0
  have hGP := hmul _ _ hG0 hA0
  have hBP := hmul _ _ hB0 hA0
  have hpack : premultiply_argb32 argb =
      16777216 * ((argb >>> 24) &&& 0xFF)
      + 65536 * (((argb >>> 16) &&& 0xFF) * ((argb >>> 24) &&& 0xFF) / 255)
      + 256 * (((argb >>> 8) &&& 0xFF) * ((argb >>> 24) &&& 0xFF) / 255)
      + ((argb &&& 0xFF) * ((argb >>> 24) &&& 0xFF) / 255) := by
    simp only [premultiply_argb32]
    exact pack_or _ _ _ _ hRP hGP hBP
  have key : ∀ A R G B : Nat, A < 256 → R < 256 → G < 256 → B < 256 →
      ((16777216 * A + 65536 * R + 256 * G + B) >>> 24) &&& 0xFF = A ∧
      ((16777216 * A + 65536 * R + 256 * G + B) >>> 16) &&& 0xFF = R ∧
      ((16777216 * A + 65536 * R + 256 * G + B) >>> 8) &&& 0xFF = G ∧
      (16777216 * A + 65536 * R + 256 * G + B) &&& 0xFF = B := by
    intro A R G B hA hR hG hB
    rw [Nat.shiftRight_eq_div_pow, Nat.shiftRight_eq_div_pow, Nat.shiftRight_eq_div_pow,
      hand, hand, hand, hand]
    norm_num
    omega
  have hk := key _ _ _ _ hA0 hRP hGP hBP
  refine ⟨?_, ?_, ?_, ?_, ?_, ?_⟩
  · rw [hpack]
    exact hk.1
  · rw [hpack]
    exact hk.2.1
  · rw [hpack]
    exact hk.2.2.1
  · rw [hpack]
    exact hk.2.2.2
  · intro h255
    have haA : argb / 16777216 % 256 = 255 := by
      have hh := h255
      rw [Nat.shiftRight_eq_div_pow, hand] at hh
      norm_num at hh
      exact hh
    have h32 : argb < 4294967296 := by
      have h2 : (2 : Nat) ^ 32 = 4294967296 := by norm_num
      rw [h2] at h
      exact h
    rw [hpack, h255]
    rw [Nat.mul_div_cancel _ (by norm_num : (0 : Nat) < 255),
        Nat.mul_div_cancel _ (by norm_num : (0 : Nat) < 255),
        Nat.mul_div_cancel _ (by norm_num : (0 : Nat) < 255)]
    rw [Nat.shiftRight_eq_div_pow, Nat.shiftRight_eq_div_pow, hand, hand, hand]
    norm_num
    omega
  · intro h0
    rw [hpack, h0]
    norm_num

/-- C8 (witness): the blue-channel equation at a concrete half-transparent
input. -/
theorem c8_premultiply_witness :
    (0x7F00FF10 : Nat) < 2 ^ 32 ∧
    premultiply_argb32 0x7F00FF10 &&& 0xFF
      = (0x7F00FF10 &&& 0xFF) * ((0x7F00FF10 >>> 24) &&& 0xFF) / 255 :=
  ⟨by norm_num, (c8_premultiply 0x7F00FF10 (by norm_num)).2.2.2.1⟩

/-! ### Claim C9 -/

/-- C9: display-name extraction — a title exactly `"EVE"` yields the empty
name, a title beginning with `"EVE - "` yields the suffix, and any other
title yields none. -/
theorem c9_is_window_eve (title : List Char) :
    (title = "EVE".toList → is_window_eve title = some []) ∧
    (∀ s, title = "EVE - ".toList ++ s → is_window_eve title = some s) ∧
    (title ≠ "EVE".toList → (∀ s, title ≠ "EVE - ".toList ++ s) →
      is_window_eve title = none) := by
  refine ⟨?_, ?_, ?_⟩
  · intro h
    subst h
    decide
  · intro s h
    subst h
    unfold is_window_eve
    rw [dropLeading_self_append]
  · intro h1 h2
    rcases hd : dropLeading "EVE - ".toList title with _ | s
    · have h1' : title ≠ ['E', 'V', 'E'] := by simpa using h1
      unfold is_window_eve
      rw [hd]
      simp [h1']
    · exact absurd (dropLeading_eq_some _ title s hd) (h2 s)

/-- C9 (witness): the three clauses at concrete titles. -/
theorem c9_is_window_eve_witness :
    is_window_eve "EVE".toList = some [] ∧
    is_window_eve ("EVE - ".toList ++ "Pilot1".toList) = some "Pilot1".toList ∧
    is_window_eve "EVEX".toList = none :=
  ⟨(c9_is_window_eve _).1 rfl,
   (c9_is_window_eve _).2.1 "Pilot1".toList rfl,
   (c9_is_window_eve "EVEX".toList).2.2 (by decide) (fun s h => by simp at h)⟩

/-! ### Claim C10 -/

/-- C10: a `WM_NAME` property change on a window not yet in the registry,
whose new title qualifies and which passes classification (it cannot be
determined not to run under wine), creates a thumbnail and inserts it — a
window acquiring a qualifying title only after creation still becomes
tracked. -/
theorem c10_property_creates (env : WinEnv) (hid : Bool) (eves : Registry) (w : Nat)
    (t : Thumb) (name : List Char)
    (hnew : lookup eves w = none)
    (hwine : env.notWine = false)
    (htitle : is_window_eve env.title = some name)
    (hcreate : env.create name = .ok t) :
    handlePropertyNotify env hid eves w .wmName = .ok (eves ++ [(w, t)]) := by
  simp [handlePropertyNotify, hnew, check_and_create_window, hwine, htitle, hcreate,
    insertR]

/-- C10 (witness): a concrete untracked window whose title became
`"EVE - Pilot1"`. -/
theorem c10_property_creates_witness :
    lookup ([] : Registry) 5 = none ∧
    handlePropertyNotify envW false [] 5 .wmName
      = .ok ([] ++ [(5, { t0 with character_name := "Pilot1".toList })]) :=
  ⟨rfl, c10_property_creates envW false [] 5 _ _ rfl rfl rfl rfl⟩

end EveL
